import Mathlib

/-!
Shallow embedding of the quality-selector plugin core
(`src/plugin.js` of videojs-hls-quality-selector, Senior-Fin fork).

JavaScript values are modelled explicitly:
  * optional numeric attributes (`width`, `height`, `bandwidth`) are
    `Option Nat` (`none` = the attribute is `undefined`);
  * the `value` field of a quality-meta / menu-item is a JS value that is
    either a number, the string literal `"auto"`, or `undefined` —
    modelled by `QualityValue`;
  * JS relational operators on possibly-`undefined` numbers return
    `false` when an operand is `undefined` (NaN semantics), which is the
    behaviour mirrored by `jsShortSide` and `valueLt`;
  * JS objects used as string-keyed dictionaries are association lists;
    key strings of distinct `QualityValue`s are distinct (a decimal
    numeral is never `"auto"` nor `"undefined"`), so keys are compared
    as `QualityValue`s directly.
-/

/-- JS value stored in the `value` field of quality metadata: a number,
the sentinel string `"auto"`, or `undefined`. -/
inductive QualityValue where
  | num (n : Nat)
  | auto
  | undefined
deriving DecidableEq, Repr

/-- One rendition (quality level) of the engine's live rendition list:
`width`/`height`/`bandwidth` attributes (possibly `undefined`) and the
mutable `enabled` flag. -/
structure Rendition where
  width : Option Nat
  height : Option Nat
  bandwidth : Option Nat
  enabled : Bool
deriving DecidableEq, Repr

/-- Result of `getQualityMeta`: `{label, value}`; `label` may be
`undefined` (a missed catalog lookup). -/
structure QualityMeta where
  label : Option String
  value : QualityValue
deriving DecidableEq, Repr

/-- The payload of one quality menu item, as handed to
`getQualityMenuItem` (`{label, value, selected}`; missing `selected`
is falsy, modelled as `false`). -/
structure MenuItem where
  label : Option String
  value : QualityValue
  selected : Bool
deriving DecidableEq, Repr

/-- The `attributes` object of a manifest playlist description; `NAME`
and `BANDWIDTH` may each be absent. -/
structure PlaylistAttrs where
  NAME : Option String
  BANDWIDTH : Option Nat
deriving DecidableEq, Repr

/-- A manifest playlist description as inspected by
`getBandwidthToNameMap`: either not an object, an object whose
`attributes` is not an object, or an object with an `attributes`
object. -/
inductive Playlist where
  | nonObject
  | noAttrs
  | withAttrs (attrs : PlaylistAttrs)
deriving DecidableEq, Repr

/-- The bandwidth-to-name dictionary.  A JS object keyed by
`String(BANDWIDTH)`; the key `none` stands for the string key
`"undefined"` produced when `BANDWIDTH` is `undefined`. -/
abbrev BandwidthNameMap := List (Option Nat × Option String)

/-- JS falsiness of a possibly-undefined number: `undefined` and `0`
are falsy. -/
def isFalsyNat : Option Nat → Bool
  | none => true
  | some n => n == 0

/-- Converts a possibly-undefined number into the `value` field
(`value: item.bandwidth`). -/
def jsNum : Option Nat → QualityValue
  | some n => .num n
  | none => .undefined

/-- `width > height ? height : width` with JS comparison semantics: a
comparison against `undefined` is `false`, so the expression evaluates
to `width` unless both are numbers with `width > height`. -/
def jsShortSide (width height : Option Nat) : Option Nat :=
  match width, height with
  | some w, some h => if w > h then some h else some w
  | _, _ => width

/-- `pixels === quality` where `pixels` is a number or `undefined` and
`quality` is a `QualityValue`. -/
def jsStrictEq (pixels : Option Nat) (q : QualityValue) : Bool :=
  match pixels, q with
  | some p, .num n => p == n
  | none, .undefined => true
  | _, _ => false

/-- `item.bandwidth ? item.bandwidth.toString() : undefined` — the
lookup key into the bandwidth map; a falsy bandwidth (absent or `0`)
gives the `undefined` key. -/
def bwKey (bandwidth : Option Nat) : Option Nat :=
  match bandwidth with
  | some n => if n == 0 then none else some n
  | none => none

/-- `map[key]` on the bandwidth dictionary: `undefined` both when the
key is absent and when the stored `NAME` was `undefined`. -/
def mapLookup (m : BandwidthNameMap) (k : Option Nat) : Option String :=
  match m.find? (fun p => p.1 == k) with
  | some p => p.2
  | none => none

/-- `Object.assign(acc, { [BANDWIDTH]: NAME })`: overwrite the value at
an existing key, otherwise append the new key. -/
def assignPair (m : BandwidthNameMap) (k : Option Nat) (v : Option String) :
    BandwidthNameMap :=
  if m.any (fun p => p.1 == k) then
    m.map (fun p => if p.1 == k then (k, v) else p)
  else
    m ++ [(k, v)]

/-- One step of the `reduce` in `getBandwidthToNameMap`: playlists that
are not objects, or whose `attributes` is not an object, leave the
accumulator unchanged; otherwise `Object.assign` the
`BANDWIDTH ↦ NAME` pair (even when both are `undefined`). -/
def catalogStep (acc : BandwidthNameMap) : Playlist → BandwidthNameMap
  | .withAttrs a => assignPair acc a.BANDWIDTH a.NAME
  | _ => acc

/-- `getBandwidthToNameMap`: fold the manifest playlist descriptions
into the bandwidth-to-name dictionary (built from `{}`). -/
def getBandwidthToNameMap (playlists : List Playlist) : BandwidthNameMap :=
  playlists.foldl catalogStep []

/-- `getQualityMeta(item)`.  If `width` or `height` is falsy the label
is looked up from the bandwidth map; otherwise the label is the short
side with suffix `"p"`.  In BOTH branches `value` is `item.bandwidth`
(source line 155 and line 164). -/
def getQualityMeta (bwMap : BandwidthNameMap) (item : Rendition) : QualityMeta :=
  if isFalsyNat item.width || isFalsyNat item.height then
    { label := mapLookup bwMap (bwKey item.bandwidth)
      value := jsNum item.bandwidth }
  else
    let pixels := jsShortSide item.width item.height
    { label := pixels.map (fun p => toString p ++ "p")
      value := jsNum item.bandwidth }

/-- One iteration of the loop in `getLevelItems`: `if (!items[value])`
insert the freshly built menu item under key `value` (stored items are
objects, hence truthy, so the test is key-presence). -/
def levelStep (bwMap : BandwidthNameMap)
    (acc : List (QualityValue × MenuItem)) (r : Rendition) :
    List (QualityValue × MenuItem) :=
  let meta := getQualityMeta bwMap r
  if acc.any (fun p => p.1 == meta.value) then acc
  else acc ++ [(meta.value,
    { label := meta.label, value := meta.value, selected := false })]

/-- Stable insertion into a list sorted by the boolean relation `le`. -/
def insertLe (le : α → α → Bool) (a : α) : List α → List α
  | [] => [a]
  | b :: l => if le a b then a :: b :: l else b :: insertLe le a l

/-- Stable sort by the boolean relation `le` (a model of the
ECMAScript stable `Array.prototype.sort` for consistent comparators). -/
def sortLe (le : α → α → Bool) : List α → List α
  | [] => []
  | a :: l => insertLe le a (sortLe le l)

/-- Is this `value`'s key string an ECMAScript array index
(an integer below `2^32 - 1`)? -/
def isArrayIndex : QualityValue → Bool
  | .num n => n < 4294967295
  | _ => false

/-- Numeric key for ordering array-index keys (only applied to
`num` keys). -/
def keyNum : QualityValue → Nat
  | .num n => n
  | _ => 0

/-- `Object.keys(items)` enumeration order: array-index keys in
ascending numeric order first, then the remaining string keys in
insertion order. -/
def objectKeysOrder (l : List (QualityValue × MenuItem)) :
    List (QualityValue × MenuItem) :=
  sortLe (fun p q => decide (keyNum p.1 ≤ keyNum q.1))
      (l.filter (fun p => isArrayIndex p.1))
    ++ l.filter (fun p => !isArrayIndex p.1)

/-- `getLevelItems(levels)`: deduplicate by `value` (first observation
wins) into the `items` object, then read the items back in
`Object.keys` order. -/
def getLevelItems (bwMap : BandwidthNameMap) (levels : List Rendition) :
    List MenuItem :=
  (objectKeysOrder (levels.foldl (levelStep bwMap) [])).map (fun p => p.2)

/-- `current.item.value < next.item.value` with JS semantics: only two
numbers compare; any comparison involving `"auto"` or `undefined` is
`false`. -/
def valueLt : QualityValue → QualityValue → Bool
  | .num a, .num b => decide (a < b)
  | _, _ => false

/-- The sort comparator of `onAddQualityLevel` as a boolean "comes
before or ties" relation: comparator ≤ 0, i.e. not
`next.value < current.value`.  (The `typeof !== 'object'` guard never
fires: every element is a menu-item object.) -/
def menuLe (a b : MenuItem) : Bool := !(valueLt b.value a.value)

/-- The trailing synthetic entry
`{label: localize('Auto'), value: 'auto', selected: true}`. -/
def autoItem (localizedAuto : String) : MenuItem :=
  { label := some localizedAuto, value := .auto, selected := true }

/-- The menu-entry list produced by `onAddQualityLevel`: sort the level
items with the comparator, then push the `"auto"` entry.
`localizedAuto` is the result of the external `player.localize('Auto')`. -/
def buildMenuItems (localizedAuto : String) (bwMap : BandwidthNameMap)
    (levels : List Rendition) : List MenuItem :=
  sortLe menuLe (getLevelItems bwMap levels) ++ [autoItem localizedAuto]

/-- The per-rendition mutation of `setQuality`'s loop:
`enabled = (pixels === quality || quality === 'auto')` with
`pixels = width > height ? height : width`. -/
def applyQuality (quality : QualityValue) (r : Rendition) : Rendition :=
  { r with enabled :=
      jsStrictEq (jsShortSide r.width r.height) quality || quality == .auto }

/-- `setQuality(quality)` acting on the controller state: records the
quality in `_currentQuality` and toggles `enabled` across the engine's
rendition list (button-text and unpress side effects are external). -/
def setQuality (quality : QualityValue)
    (s : Option QualityValue × List Rendition) :
    Option QualityValue × List Rendition :=
  (some quality, s.2.map (applyQuality quality))

/-- JS falsiness of a stored `_currentQuality` value: the number `0`
and `undefined` are falsy; `"auto"` is a non-empty string, truthy. -/
def qualityIsFalsy : QualityValue → Bool
  | .num n => n == 0
  | .auto => false
  | .undefined => true

/-- `getCurrentQuality()`: `this._currentQuality || 'auto'`
(`none` models a `_currentQuality` that was never assigned). -/
def getCurrentQuality (cq : Option QualityValue) : QualityValue :=
  match cq with
  | some q => if qualityIsFalsy q then .auto else q
  | none => .auto

/-- Projection of a rendition to everything except `enabled`. -/
def renditionShape (r : Rendition) : Option Nat × Option Nat × Option Nat :=
  (r.width, r.height, r.bandwidth)

/-! ### Helper lemmas about the stable sort -/

theorem mem_insertLe (le : α → α → Bool) (a x : α) :
    ∀ l : List α, x ∈ insertLe le a l ↔ x = a ∨ x ∈ l := by
  intro l
  induction l with
  | nil => simp [insertLe]
  | cons b l ih =>
    by_cases h : le a b = true
    · simp [insertLe, h]
    · simp only [insertLe, if_neg h, List.mem_cons, ih]
      tauto

theorem mem_sortLe (le : α → α → Bool) (x : α) :
    ∀ l : List α, x ∈ sortLe le l ↔ x ∈ l := by
  intro l
  induction l with
  | nil => simp [sortLe]
  | cons a l ih => simp [sortLe, mem_insertLe, ih]

theorem pairwise_insertLe (le : α → α → Bool) (P : α → Prop)
    (total : ∀ a b, P a → P b → (le a b || le b a) = true)
    (trans : ∀ a b c, P a → P b → P c → le a b = true → le b c = true →
      le a c = true)
    (a : α) (hPa : P a) :
    ∀ l : List α, (∀ x ∈ l, P x) →
      l.Pairwise (fun x y => le x y = true) →
      (insertLe le a l).Pairwise (fun x y => le x y = true) := by
  intro l
  induction l with
  | nil => intro _ _; simp [insertLe]
  | cons b l ih =>
    intro hPl hl
    have hPb : P b := hPl b (by simp)
    have hPtail : ∀ x ∈ l, P x := fun x hx => hPl x (by simp [hx])
    rcases List.pairwise_cons.mp hl with ⟨hb, hlt⟩
    by_cases h : le a b = true
    · rw [insertLe, if_pos h]
      refine List.pairwise_cons.mpr ⟨?_, hl⟩
      intro y hy
      rcases List.mem_cons.mp hy with rfl | hyl
      · exact h
      · exact trans a b y hPa hPb (hPtail y hyl) h (hb y hyl)
    · rw [insertLe, if_neg h]
      refine List.pairwise_cons.mpr ⟨?_, ih hPtail hlt⟩
      intro y hy
      rcases (mem_insertLe le a y l).mp hy with hya | hyl
      · rw [hya]
        have := total a b hPa hPb
        simp only [Bool.or_eq_true] at this
        rcases this with h' | h'
        · exact absurd h' h
        · exact h'
      · exact hb y hyl

theorem pairwise_sortLe (le : α → α → Bool) (P : α → Prop)
    (total : ∀ a b, P a → P b → (le a b || le b a) = true)
    (trans : ∀ a b c, P a → P b → P c → le a b = true → le b c = true →
      le a c = true) :
    ∀ l : List α, (∀ x ∈ l, P x) →
      (sortLe le l).Pairwise (fun x y => le x y = true) := by
  intro l
  induction l with
  | nil => intro _; simp [sortLe]
  | cons a l ih =>
    intro hP
    have hPa : P a := hP a (by simp)
    have hPtail : ∀ x ∈ l, P x := fun x hx => hP x (by simp [hx])
    refine pairwise_insertLe le P total trans a hPa (sortLe le l) ?_ (ih hPtail)
    intro x hx
    exact hPtail x ((mem_sortLe le x l).mp hx)

/-! ### Helper lemmas about the menu-item pipeline -/

theorem getQualityMeta_value (bwMap : BandwidthNameMap) (r : Rendition) :
    (getQualityMeta bwMap r).value = jsNum r.bandwidth := by
  unfold getQualityMeta
  split <;> rfl

theorem foldl_levelStep_mem (bwMap : BandwidthNameMap) :
    ∀ (levels : List Rendition) (acc : List (QualityValue × MenuItem))
      (p : QualityValue × MenuItem),
      p ∈ levels.foldl (levelStep bwMap) acc →
      p ∈ acc ∨ ∃ r, r ∈ levels ∧ p.2.value = jsNum r.bandwidth := by
  intro levels
  induction levels with
  | nil => intro acc p hp; exact Or.inl hp
  | cons r rest ih =>
    intro acc p hp
    rcases ih (levelStep bwMap acc r) p hp with h | ⟨r', hr', hv⟩
    · unfold levelStep at h
      by_cases hc :
          (acc.any (fun q => q.1 == (getQualityMeta bwMap r).value)) = true
      · simp only [hc, if_pos] at h
        exact Or.inl h
      · simp only [hc] at h
        rw [if_neg (by simp [hc])] at h
        rcases List.mem_append.mp h with h' | h'
        · exact Or.inl h'
        · refine Or.inr ⟨r, by simp, ?_⟩
          have : p = ((getQualityMeta bwMap r).value,
              { label := (getQualityMeta bwMap r).label,
                value := (getQualityMeta bwMap r).value,
                selected := false }) := by simpa using h'
          rw [this]
          exact getQualityMeta_value bwMap r
    · exact Or.inr ⟨r', by simp [hr'], hv⟩

theorem mem_objectKeysOrder (l : List (QualityValue × MenuItem))
    (p : QualityValue × MenuItem) (hp : p ∈ objectKeysOrder l) : p ∈ l := by
  unfold objectKeysOrder at hp
  rcases List.mem_append.mp hp with h | h
  · exact List.mem_of_mem_filter
      ((mem_sortLe _ p _).mp h)
  · exact List.mem_of_mem_filter h

theorem mem_getLevelItems_value (bwMap : BandwidthNameMap)
    (levels : List Rendition) (e : MenuItem)
    (he : e ∈ getLevelItems bwMap levels) :
    ∃ r, r ∈ levels ∧ e.value = jsNum r.bandwidth := by
  unfold getLevelItems at he
  rcases List.mem_map.mp he with ⟨p, hp, rfl⟩
  have hp' := mem_objectKeysOrder _ p hp
  rcases foldl_levelStep_mem bwMap levels [] p hp' with h | h
  · simp at h
  · exact h

theorem mem_buildMenuItems_front
    (bwMap : BandwidthNameMap) (levels : List Rendition) (e : MenuItem)
    (he : e ∈ sortLe menuLe (getLevelItems bwMap levels)) :
    ∃ r, r ∈ levels ∧ e.value = jsNum r.bandwidth :=
  mem_getLevelItems_value bwMap levels e ((mem_sortLe menuLe e _).mp he)

theorem assignPair_any_key (m : BandwidthNameMap) (k : Option Nat)
    (v : Option String) :
    (assignPair m k v).any (fun p => p.1 == k) = true := by
  unfold assignPair
  by_cases h : (m.any (fun p => p.1 == k)) = true
  · rw [if_pos h]
    rcases List.any_eq_true.mp h with ⟨p, hp, hpk⟩
    refine List.any_eq_true.mpr ⟨(k, v), List.mem_map.mpr ⟨p, hp, ?_⟩, by simp⟩
    simp [hpk]
  · rw [if_neg h]
    simp

/-! ### Small facts about the short-side computation -/

theorem jsShortSide_both (w h : Nat) :
    jsShortSide (some w) (some h) = some (min w h) := by
  show (if w > h then some h else some w) = some (min w h)
  by_cases hgt : w > h
  · rw [if_pos hgt]
    congr 1
    omega
  · rw [if_neg hgt]
    congr 1
    omega

theorem jsShortSide_none_left (h : Option Nat) : jsShortSide none h = none := by
  cases h <;> rfl

theorem jsShortSide_some_none (w : Nat) : jsShortSide (some w) none = some w := rfl

theorem jsStrictEq_some (p : Nat) (v : QualityValue) :
    jsStrictEq (some p) v = (v == .num p) := by
  cases v with
  | num n =>
    show (p == n) = (QualityValue.num n == QualityValue.num p)
    by_cases h : p = n
    · subst h
      simp
    · simp [h, Ne.symm h]
  | auto => rfl
  | undefined => rfl

/-! ### Claims -/

/-- C1: the spec says that for a rendition with both width and height the
quality meta is `value = min(width, height)`, `label = value + "p"`.  The
code (line 164) instead sets `value` to `item.bandwidth`: at the rendition
`{width: 960, height: 540, bandwidth: 2000000}` the code produces label
`"540p"` but value `2000000`, not `540 = min(960, 540)`.  Evaluation of the
embedded `getQualityMeta` at that failing input. -/
theorem getQualityMeta_geometry_value_is_bandwidth :
    getQualityMeta []
        { width := some 960, height := some 540, bandwidth := some 2000000,
          enabled := true } =
      { label := some "540p", value := .num 2000000 } ∧
    QualityValue.num 2000000 ≠ .num (min 960 540) := by
  constructor
  · decide
  · decide

/-- C2: the spec says two renditions with equal short side collapse to one
menu entry.  The code deduplicates by `value`, which is the bandwidth: the
two renditions `960x540 @ 1000000` and `960x540 @ 2000000` share the short
side `540` yet produce TWO menu entries (both labelled `"540p"`).
Evaluation of the embedded `getLevelItems` at that failing input. -/
theorem getLevelItems_same_short_side_two_entries :
    (getLevelItems []
        [{ width := some 960, height := some 540, bandwidth := some 1000000,
           enabled := true },
         { width := some 960, height := some 540, bandwidth := some 2000000,
           enabled := true }]).map (fun e => (e.label, e.value)) =
      [(some "540p", .num 1000000), (some "540p", .num 2000000)] := by
  decide

/-- C4 (counterexample): `getCurrentQuality` is `this._currentQuality ||
'auto'`; the falsy value `0` is replaced by `"auto"`, so after
`setQuality(0)` the accessor does NOT return the last value passed. -/
theorem getCurrentQuality_zero_counterexample :
    getCurrentQuality (setQuality (.num 0) (none, ([] : List Rendition))).1 =
        .auto ∧
      QualityValue.auto ≠ .num 0 := by
  decide

/-- C4 (amended): `getCurrentQuality()` returns `"auto"` before any
`setQuality` call; after `setQuality(v)` with no later call it returns
exactly `v` whenever `v` is truthy (a nonzero number, or `"auto"`), and
returns `"auto"` when `v` is falsy (`0` or `undefined`). -/
theorem getCurrentQuality_truthy_spec :
    getCurrentQuality none = .auto ∧
    (∀ (cq : Option QualityValue) (l : List Rendition) (v : QualityValue),
      qualityIsFalsy v = false →
      getCurrentQuality (setQuality v (cq, l)).1 = v) ∧
    (∀ (cq : Option QualityValue) (l : List Rendition) (v : QualityValue),
      qualityIsFalsy v = true →
      getCurrentQuality (setQuality v (cq, l)).1 = .auto) := by
  refine ⟨rfl, ?_, ?_⟩ <;>
    intro cq l v hv <;>
    simp [setQuality, getCurrentQuality, hv]

/-- Witness for the amended C4: after `setQuality(540)` the accessor
returns `540`. -/
theorem getCurrentQuality_truthy_spec_witness :
    getCurrentQuality
        (setQuality (.num 540) (none, ([] : List Rendition))).1 =
      .num 540 :=
  getCurrentQuality_truthy_spec.2.1 none [] (.num 540) (by decide)

/-- C7 (counterexample): a playlist description with an `attributes`
object but neither `NAME` nor `BANDWIDTH` is NOT skipped: `Object.assign`
stores the pair under the string key `"undefined"`, so the map gains a
key. -/
theorem catalog_missing_pair_adds_key :
    (getBandwidthToNameMap
        [Playlist.withAttrs { NAME := none, BANDWIDTH := none }]).length =
      1 := by
  decide

/-- C7 (amended): catalog construction never fails; a description that is
not an object, or whose `attributes` is not an object, is skipped and
contributes no key; but a description whose `attributes` object merely
lacks `NAME`/`BANDWIDTH` contributes the degenerate `"undefined"`-bandwidth
key to the map. -/
theorem catalog_malformed_spec :
    (∀ (pre post : List Playlist),
        getBandwidthToNameMap (pre ++ Playlist.nonObject :: post) =
            getBandwidthToNameMap (pre ++ post) ∧
          getBandwidthToNameMap (pre ++ Playlist.noAttrs :: post) =
            getBandwidthToNameMap (pre ++ post)) ∧
    (∀ pre : List Playlist,
        (getBandwidthToNameMap
            (pre ++
              [Playlist.withAttrs { NAME := none, BANDWIDTH := none }])).any
          (fun p => p.1 == none) = true) := by
  constructor
  · intro pre post
    constructor <;> simp [getBandwidthToNameMap, List.foldl_append, catalogStep]
  · intro pre
    simp only [getBandwidthToNameMap, List.foldl_append, List.foldl_cons,
      List.foldl_nil, catalogStep]
    exact assignPair_any_key _ none none

/-- C8: `setQuality` only toggles `enabled`: the rendition list keeps its
length, its order, and every other per-rendition field (`width`,
`height`, `bandwidth`). -/
theorem setQuality_preserves_list_shape :
    ∀ (cq : Option QualityValue) (l : List Rendition) (v : QualityValue),
      ((setQuality v (cq, l)).2).length = l.length ∧
      ((setQuality v (cq, l)).2).map renditionShape =
        l.map renditionShape := by
  intro cq l v
  constructor
  · simp [setQuality]
  · simp [setQuality, List.map_map, Function.comp, renditionShape,
      applyQuality]

/-- C9: a rendition whose `width` or `height` is `0` (falsy) takes the
bandwidth-lookup branch of `getQualityMeta` even though both geometry
attributes are present on the object. -/
theorem getQualityMeta_zero_geometry_bandwidth_branch :
    ∀ (bwMap : BandwidthNameMap) (w h : Nat) (bw : Option Nat) (en : Bool),
      w = 0 ∨ h = 0 →
      getQualityMeta bwMap
          { width := some w, height := some h, bandwidth := bw,
            enabled := en } =
        { label := mapLookup bwMap (bwKey bw), value := jsNum bw } := by
  intro bwMap w h bw en hwh
  unfold getQualityMeta
  rcases hwh with rfl | rfl <;> simp [isFalsyNat]

/-- Witness for C9: rendition `{width: 0, height: 720, bandwidth:
2000000}` resolves its label from the bandwidth map. -/
theorem getQualityMeta_zero_geometry_bandwidth_branch_witness :
    getQualityMeta [(some 2000000, some "720p")]
        { width := some 0, height := some 720, bandwidth := some 2000000,
          enabled := true } =
      { label := some "720p", value := .num 2000000 } := by
  rw [getQualityMeta_zero_geometry_bandwidth_branch
    [(some 2000000, some "720p")] 0 720 (some 2000000) true (Or.inl rfl)]
  decide

/-- C10 (counterexample): the claim says every rendition lacking a width
or a height ends up disabled after a numeric `setQuality`.  But
`width > height ? height : width` with an `undefined` height evaluates to
`width`, so `{width: 540, height: undefined}` is ENABLED after
`setQuality(540)`. -/
theorem setQuality_width_only_enabled_counterexample :
    ((setQuality (.num 540)
        (none,
          [{ width := some 540, height := none, bandwidth := some 1000000,
             enabled := false }])).2.get ⟨0, by decide⟩).enabled = true := by
  decide

/-- C10 (amended): after `setQuality(v)` with numeric `v`, a rendition
lacking a width is disabled (its pixel value is `undefined`); a rendition
with a width but no height uses its width as the pixel value and is
enabled exactly when that width equals `v`. -/
theorem setQuality_missing_geometry_spec :
    ∀ (cq : Option QualityValue) (l : List Rendition) (n : Nat) (i : Nat)
      (hi : i < l.length) (hi2 : i < ((setQuality (.num n) (cq, l)).2).length),
      ((l.get ⟨i, hi⟩).width = none →
        ((setQuality (.num n) (cq, l)).2.get ⟨i, hi2⟩).enabled = false) ∧
      (∀ w, (l.get ⟨i, hi⟩).width = some w → (l.get ⟨i, hi⟩).height = none →
        (((setQuality (.num n) (cq, l)).2.get ⟨i, hi2⟩).enabled = true ↔
          w = n)) := by
  intro cq l n i hi hi2
  have hget : (setQuality (.num n) (cq, l)).2.get ⟨i, hi2⟩ =
      applyQuality (.num n) (l.get ⟨i, hi⟩) := by
    simp [setQuality, List.get_eq_getElem, List.getElem_map]
  constructor
  · intro hw
    rw [hget]
    simp only [List.get_eq_getElem] at hw
    simp [applyQuality, hw, jsShortSide_none_left, jsStrictEq]
  · intro w hw hh
    rw [hget]
    simp only [List.get_eq_getElem] at hw hh
    simp [applyQuality, hw, hh, jsShortSide_some_none, jsStrictEq]

/-- Witness for the amended C10: a bandwidth-only rendition (no width, no
height) is disabled by `setQuality(540)`. -/
theorem setQuality_missing_geometry_spec_witness :
    ((setQuality (.num 540)
        (none,
          [{ width := none, height := none, bandwidth := some 1000000,
             enabled := true }])).2.get ⟨0, by decide⟩).enabled = false :=
  (setQuality_missing_geometry_spec none
    [{ width := none, height := none, bandwidth := some 1000000,
       enabled := true }] 540 0 (by decide) (by decide)).1 rfl

/-- C3: after `setQuality(v)`, a rendition with both `width` and `height`
present is enabled exactly when its short side `min(width, height)`
equals `v` or `v` is `"auto"`; and `setQuality("auto")` enables every
rendition of any list, regardless of prior state. -/
theorem setQuality_enabled_iff_short_side :
    (∀ (cq : Option QualityValue) (l : List Rendition) (v : QualityValue)
        (i : Nat) (hi : i < l.length)
        (hi2 : i < ((setQuality v (cq, l)).2).length) (w h : Nat),
        (l.get ⟨i, hi⟩).width = some w → (l.get ⟨i, hi⟩).height = some h →
        (((setQuality v (cq, l)).2.get ⟨i, hi2⟩).enabled = true ↔
          (v = .num (min w h) ∨ v = .auto))) ∧
    (∀ (cq : Option QualityValue) (l : List Rendition) (r : Rendition),
        r ∈ (setQuality .auto (cq, l)).2 → r.enabled = true) := by
  constructor
  · intro cq l v i hi hi2 w h hw hh
    have hget : (setQuality v (cq, l)).2.get ⟨i, hi2⟩ =
        applyQuality v (l.get ⟨i, hi⟩) := by
      simp [setQuality, List.get_eq_getElem, List.getElem_map]
    rw [hget]
    simp only [List.get_eq_getElem] at hw hh
    simp [applyQuality, hw, hh, jsShortSide_both, jsStrictEq_some]
  · intro cq l r hr
    simp only [setQuality] at hr
    rcases List.mem_map.mp hr with ⟨r', _, rfl⟩
    simp [applyQuality]

/-- Witness for C3: the spec scenario — after `setQuality(540)` on
`[960x540, 640x360, 1920x1080]`, the first rendition is enabled. -/
theorem setQuality_enabled_iff_short_side_witness :
    ((setQuality (.num 540)
        (none,
          [{ width := some 960, height := some 540, bandwidth := some 1000,
             enabled := false },
           { width := some 640, height := some 360, bandwidth := some 2000,
             enabled := true },
           { width := some 1920, height := some 1080, bandwidth := some 3000,
             enabled := true }])).2.get ⟨0, by decide⟩).enabled = true :=
  (setQuality_enabled_iff_short_side.1 none
    [{ width := some 960, height := some 540, bandwidth := some 1000,
       enabled := false },
     { width := some 640, height := some 360, bandwidth := some 2000,
       enabled := true },
     { width := some 1920, height := some 1080, bandwidth := some 3000,
       enabled := true }] (.num 540) 0 (by decide) (by decide) 960 540
    rfl rfl).mpr (Or.inl (by decide))

/-- C5: for every input rendition list the produced menu-entry list holds
exactly one entry whose value is `"auto"`, and that entry is the last
element. -/
theorem buildMenuItems_auto_last_unique :
    ∀ (localizedAuto : String) (bwMap : BandwidthNameMap)
      (levels : List Rendition),
      ((buildMenuItems localizedAuto bwMap levels).filter
          (fun e => e.value == QualityValue.auto)).length = 1 ∧
      (buildMenuItems localizedAuto bwMap levels).getLast? =
        some (autoItem localizedAuto) := by
  intro loc bwMap levels
  have hfront : ∀ e ∈ sortLe menuLe (getLevelItems bwMap levels),
      (e.value == QualityValue.auto) = false := by
    intro e he
    rcases mem_buildMenuItems_front bwMap levels e he with ⟨r, _, hv⟩
    cases hbw : r.bandwidth <;> simp [hv, hbw, jsNum]
  constructor
  · unfold buildMenuItems
    rw [List.filter_append]
    have h0 : (sortLe menuLe (getLevelItems bwMap levels)).filter
        (fun e => e.value == QualityValue.auto) = [] := by
      rw [List.filter_eq_nil_iff]
      intro e he
      simp [hfront e he]
    rw [h0]
    simp [autoItem]
  · unfold buildMenuItems
    simp

/-- C6: given that every rendition carries a bandwidth (so every menu
value is numeric), the menu entries before the trailing auto entry are in
non-decreasing order of their `value` field. -/
theorem buildMenuItems_sorted :
    ∀ (localizedAuto : String) (bwMap : BandwidthNameMap)
      (levels : List Rendition),
      (∀ r ∈ levels, r.bandwidth ≠ none) →
      ((buildMenuItems localizedAuto bwMap levels).dropLast).Pairwise
        (fun a b => ∃ x y, a.value = QualityValue.num x ∧
          b.value = QualityValue.num y ∧ x ≤ y) := by
  intro loc bwMap levels hb
  have hdrop : (buildMenuItems loc bwMap levels).dropLast =
      sortLe menuLe (getLevelItems bwMap levels) := by
    unfold buildMenuItems
    simp
  rw [hdrop]
  have hP0 : ∀ e ∈ getLevelItems bwMap levels,
      ∃ n, e.value = QualityValue.num n := by
    intro e he
    rcases mem_getLevelItems_value bwMap levels e he with ⟨r, hr, hv⟩
    cases hbw : r.bandwidth with
    | none => exact absurd hbw (hb r hr)
    | some n =>
      refine ⟨n, ?_⟩
      rw [hv, hbw]
      rfl
  have htotal : ∀ a b : MenuItem, (∃ n, a.value = QualityValue.num n) →
      (∃ n, b.value = QualityValue.num n) →
      (menuLe a b || menuLe b a) = true := by
    rintro a b ⟨x, hx⟩ ⟨y, hy⟩
    simp [menuLe, valueLt, hx, hy]
    omega
  have htrans : ∀ a b c : MenuItem, (∃ n, a.value = QualityValue.num n) →
      (∃ n, b.value = QualityValue.num n) →
      (∃ n, c.value = QualityValue.num n) →
      menuLe a b = true → menuLe b c = true → menuLe a c = true := by
    rintro a b c ⟨x, hx⟩ ⟨y, hy⟩ ⟨z, hz⟩ hab hbc
    simp [menuLe, valueLt, hx, hy, hz] at hab hbc ⊢
    omega
  have hpw := pairwise_sortLe menuLe
    (fun e => ∃ n, e.value = QualityValue.num n) htotal htrans
    (getLevelItems bwMap levels) hP0
  refine List.Pairwise.imp_of_mem ?_ hpw
  intro a b ha hb' hle
  rcases hP0 a ((mem_sortLe menuLe a _).mp ha) with ⟨x, hx⟩
  rcases hP0 b ((mem_sortLe menuLe b _).mp hb') with ⟨y, hy⟩
  refine ⟨x, y, hx, hy, ?_⟩
  simp [menuLe, valueLt, hx, hy] at hle
  omega

/-- Witness for C6: a two-rendition list with bandwidths present yields a
non-decreasing pre-auto menu. -/
theorem buildMenuItems_sorted_witness :
    ((buildMenuItems "Auto" []
        [{ width := some 960, height := some 540, bandwidth := some 2000000,
           enabled := true },
         { width := some 640, height := some 360, bandwidth := some 1000000,
           enabled := true }]).dropLast).Pairwise
      (fun a b => ∃ x y, a.value = QualityValue.num x ∧
        b.value = QualityValue.num y ∧ x ≤ y) :=
  buildMenuItems_sorted "Auto" []
    [{ width := some 960, height := some 540, bandwidth := some 2000000,
       enabled := true },
     { width := some 640, height := some 360, bandwidth := some 1000000,
       enabled := true }] (by decide)
